import Mathlib

/-!
Shallow embedding of the attendance backend (src/index.js, with the admin
endpoints of src/unnamed/part_000). The SQLite tables become lists of rows;
each Express handler becomes a pure function from the request fields and the
current time to a result and an updated database. SQL semantics are modelled
directly: `db.get` is `List.find?`, `db.all ... WHERE p` is `List.filter p`,
`INSERT` appends, `INSERT OR IGNORE` appends unless the UNIQUE(session_id,
student_id) key is already present, `UPDATE ... WHERE` maps over the rows,
and `DELETE ... WHERE` filters. JavaScript falsiness of a request field is
modelled as the empty string for text fields and `0` for the numeric
`duration_minutes` field.
-/

/-- Row of the `students` table: student_id TEXT PRIMARY KEY, name, roll_no
TEXT UNIQUE, department. -/
structure Student where
  student_id : String
  name : String
  roll_no : String
  department : String
deriving Repr, DecidableEq

/-- Row of the `teachers` table: teacher_id TEXT PRIMARY KEY, username TEXT
UNIQUE, password. -/
structure Teacher where
  teacher_id : String
  username : String
  password : String
deriving Repr, DecidableEq

/-- Row of the `attendance_sessions` table: session_id TEXT PRIMARY KEY,
department, start_time INTEGER, end_time INTEGER, status TEXT. -/
structure Session where
  session_id : String
  department : String
  start_time : Int
  end_time : Int
  status : String
deriving Repr, DecidableEq

/-- Row of the `attendance_records` table: session_id, student_id, status,
UNIQUE(session_id, student_id). -/
structure AttendanceRecord where
  session_id : String
  student_id : String
  status : String
deriving Repr, DecidableEq

/-- The whole SQLite database `attendance.db`. -/
structure DB where
  students : List Student
  teachers : List Teacher
  sessions : List Session
  records : List AttendanceRecord
deriving Repr, DecidableEq

/-- Outcome of POST /api/sessions/start. `missingFields` is the 403
"Unauthorized or missing fields" response on a falsy field, `unauthorized`
the 403 on an unknown teacher_id, `alreadyActive` the 400 "Session already
active" conflict. -/
inductive StartResult where
  | missingFields
  | unauthorized
  | alreadyActive
  | ok (session_id : String)
deriving Repr, DecidableEq

/-- Outcome of POST /api/attendance/mark. `missingId` is the 400 "Student ID
missing" response, `notActive` the 400 "Attendance closed or invalid"
response when the ACTIVE-session join finds no row, `alreadyMarked` the 400
"Already marked" response when the UNIQUE(session_id, student_id) insert
fails. -/
inductive MarkResult where
  | missingId
  | notActive
  | alreadyMarked
  | marked
deriving Repr, DecidableEq

/-- Outcome of POST /api/students/register. -/
inductive RegisterResult where
  | missingFields
  | rollConflict
  | ok (student_id : String)
deriving Repr, DecidableEq

/-- Outcome of DELETE /api/admin/students/:id (src/unnamed/part_000). -/
inductive DeleteResult where
  | unauthorized
  | removed
deriving Repr, DecidableEq

/-- Predicate of `SELECT * FROM attendance_sessions WHERE status='ACTIVE' AND
department=?`. -/
def isActiveFor (department : String) (s : Session) : Bool :=
  s.status == "ACTIVE" && s.department == department

/-- Membership test against UNIQUE(session_id, student_id): does a record for
the pair already exist? -/
def hasRecord (sid tid : String) (records : List AttendanceRecord) : Bool :=
  records.any (fun r => r.session_id == sid && r.student_id == tid)

/-- POST /api/sessions/start (src/index.js lines 123-160): falsy-field check,
teacher verification, one-active-session-per-department check, then insert of
a new ACTIVE session with end_time = now + duration_minutes*60000. `new_id`
stands for the generated uuidv4. -/
def startSession (teacher_id department : String) (duration_minutes now : Int)
    (new_id : String) (db : DB) : StartResult × DB :=
  if teacher_id == "" || department == "" || duration_minutes == 0 then
    (.missingFields, db)
  else
    match db.teachers.find? (fun t => t.teacher_id == teacher_id) with
    | none => (.unauthorized, db)
    | some _ =>
      if db.sessions.any (isActiveFor department) then
        (.alreadyActive, db)
      else
        (.ok new_id,
          { db with sessions := db.sessions ++
              [⟨new_id, department, now, now + duration_minutes * 60000, "ACTIVE"⟩] })

/-- POST /api/attendance/mark (src/index.js lines 165-200): falsy student_id
check, then the join of `attendance_sessions` with `students` looking for an
ACTIVE session of the student's department with end_time > now, then the
INSERT of a PRESENT record, failing on the UNIQUE(session_id, student_id)
conflict. -/
def mark (student_id : String) (now : Int) (db : DB) : MarkResult × DB :=
  if student_id == "" then
    (.missingId, db)
  else
    match db.students.find? (fun st => st.student_id == student_id) with
    | none => (.notActive, db)
    | some st =>
      match db.sessions.find? (fun s =>
          s.status == "ACTIVE" && decide (now < s.end_time) &&
            s.department == st.department) with
      | none => (.notActive, db)
      | some s =>
        if hasRecord s.session_id student_id db.records then
          (.alreadyMarked, db)
        else
          (.marked,
            { db with records := db.records ++ [⟨s.session_id, student_id, "PRESENT"⟩] })

/-- POST /api/students/register (src/index.js lines 77-96): falsy-field check
then INSERT, which fails on the roll_no UNIQUE constraint or the student_id
primary key. `new_id` stands for the generated uuidv4. -/
def register (name roll_no department new_id : String) (db : DB) :
    RegisterResult × DB :=
  if name == "" || roll_no == "" || department == "" then
    (.missingFields, db)
  else if db.students.any (fun st => st.roll_no == roll_no || st.student_id == new_id) then
    (.rollConflict, db)
  else
    (.ok new_id,
      { db with students := db.students ++ [⟨new_id, name, roll_no, department⟩] })

/-- Startup seeding of the default teacher (src/index.js lines 64-72): insert
t-001/admin only when the teachers table is empty. -/
def seedTeacher (db : DB) : DB :=
  match db.teachers with
  | [] => { db with teachers := [⟨"t-001", "admin", "admin123"⟩] }
  | _ => db

/-- The sweep's `INSERT OR IGNORE INTO attendance_records SELECT ?,
student_id, 'ABSENT' FROM students WHERE department=?` (src/index.js lines
215-222): for each student of the department, in table order, append an
ABSENT record unless one already exists for the (session_id, student_id)
key. -/
def insertAbsent (sid department : String) (students : List Student)
    (records : List AttendanceRecord) : List AttendanceRecord :=
  (students.filter (fun st => st.department == department)).foldl
    (fun recs st =>
      if hasRecord sid st.student_id recs then recs
      else recs ++ [⟨sid, st.student_id, "ABSENT"⟩])
    records

/-- The sweep's `UPDATE attendance_sessions SET status='INACTIVE' WHERE
session_id=?` (src/index.js lines 225-228). -/
def closeSession (sid : String) (sessions : List Session) : List Session :=
  sessions.map (fun t => if t.session_id == sid then { t with status := "INACTIVE" } else t)

/-- One iteration of the sweep's forEach: backfill absentees, then close the
session. -/
def sweepOne (db : DB) (s : Session) : DB :=
  { db with
    records := insertAbsent s.session_id s.department db.students db.records
    sessions := closeSession s.session_id db.sessions }

/-- The sweep's selection `SELECT * FROM attendance_sessions WHERE
status='ACTIVE' AND end_time <= ?` (src/index.js line 209). -/
def expiredSessions (now : Int) (db : DB) : List Session :=
  db.sessions.filter (fun s => s.status == "ACTIVE" && decide (s.end_time ≤ now))

/-- The setInterval sweep body (src/index.js lines 205-232): select the
expired ACTIVE sessions once, then process each in order. -/
def sweep (now : Int) (db : DB) : DB :=
  (expiredSessions now db).foldl sweepOne db

/-- DELETE /api/admin/students/:id (src/unnamed/part_000 lines 281-298):
teacher check, then `DELETE FROM students WHERE student_id=?`; no cascade. -/
def deleteStudent (teacher_id student_id : String) (db : DB) : DeleteResult × DB :=
  match db.teachers.find? (fun t => t.teacher_id == teacher_id) with
  | none => (.unauthorized, db)
  | some _ =>
    (.removed,
      { db with students := db.students.filter (fun st => !(st.student_id == student_id)) })

/-- The reporting join of GET /api/admin/history (src/index.js lines 255-264):
`SELECT st.name, st.roll_no, ar.status FROM attendance_records ar JOIN
attendance_sessions s ON ar.session_id = s.session_id JOIN students st ON
ar.student_id = st.student_id WHERE s.department = ? AND s.start_time BETWEEN
? AND ?`. The day boundaries dayStart = new Date(date).setHours(0,0,0,0) and
dayEnd = new Date(date).setHours(23,59,59,999) are passed in as the two
already-computed millisecond bounds of the local calendar day; BETWEEN is
inclusive at both ends. -/
def historyQuery (department : String) (dayStart dayEnd : Int) (db : DB) :
    List (String × String × String) :=
  db.records.flatMap (fun ar =>
    db.sessions.flatMap (fun s =>
      db.students.filterMap (fun st =>
        if ar.session_id == s.session_id && ar.student_id == st.student_id &&
            s.department == department && decide (dayStart ≤ s.start_time) &&
            decide (s.start_time ≤ dayEnd) then
          some (st.name, st.roll_no, ar.status)
        else none)))

/-- GET /api/admin/history (src/index.js lines 237-269): falsy-parameter
check, teacher verification, then the reporting join. `date` is the raw query
parameter, used only for the falsiness check; its parsed day boundaries are
the `dayStart`/`dayEnd` arguments. `none` is the 403 response. -/
def history (teacher_id department date : String) (dayStart dayEnd : Int)
    (db : DB) : Option (List (String × String × String)) :=
  if teacher_id == "" || department == "" || date == "" then none
  else
    match db.teachers.find? (fun t => t.teacher_id == teacher_id) with
    | none => none
    | some _ => some (historyQuery department dayStart dayEnd db)

/-- Every state-mutating entry point of the backend, as one step type: the
startup teacher seeding, the four POST/DELETE handlers, and the periodic
sweep. The read-only endpoints (login, history, export, student list, qr)
never write the store. -/
inductive Op where
  | opSeed
  | opRegister (name roll_no department new_id : String)
  | opStart (teacher_id department : String) (duration_minutes now : Int) (new_id : String)
  | opMark (student_id : String) (now : Int)
  | opSweep (now : Int)
  | opDelete (teacher_id student_id : String)
deriving Repr, DecidableEq

/-- State transition of one operation (the response is discarded). -/
def applyOp (op : Op) (db : DB) : DB :=
  match op with
  | .opSeed => seedTeacher db
  | .opRegister n r d i => (register n r d i db).2
  | .opStart t d dur now i => (startSession t d dur now i db).2
  | .opMark x now => (mark x now db).2
  | .opSweep now => sweep now db
  | .opDelete t x => (deleteStudent t x db).2

/-- Number of ACTIVE sessions of a department. -/
def activeCount (department : String) (db : DB) : Nat :=
  db.sessions.countP (isActiveFor department)

/-- Invariant of claim C1: at most one ACTIVE session per department. -/
def UniqueActivePerDept (db : DB) : Prop :=
  ∀ department : String, activeCount department db ≤ 1

/-- Number of records for one (session_id, student_id) key. -/
def pairCount (sid tid : String) (records : List AttendanceRecord) : Nat :=
  records.countP (fun r => r.session_id == sid && r.student_id == tid)

/-- Invariant of claim C2: at most one record per (session_id, student_id),
the UNIQUE constraint of the attendance_records table. -/
def PairUnique (db : DB) : Prop :=
  ∀ sid tid : String, pairCount sid tid db.records ≤ 1

/-! ### Generic fold and search lemmas -/

/-- A property preserved by every step of a left fold holds at the end. -/
theorem foldl_pres {α β : Type} {f : β → α → β} {P : β → Prop}
    (hmono : ∀ b c, P b → P (f b c)) :
    ∀ (l : List α) (b : β), P b → P (l.foldl f b) := by
  intro l
  induction l with
  | nil => intro b hb; exact hb
  | cons c cs ih => intro b hb; exact ih (f b c) (hmono b c hb)

/-- A property preserved by the step of a left fold for every element of the
list holds at the end. -/
theorem foldl_pres_of_mem {α β : Type} {f : β → α → β} {P : β → Prop} :
    ∀ (l : List α), (∀ c ∈ l, ∀ b, P b → P (f b c)) → ∀ b, P b → P (l.foldl f b) := by
  intro l
  induction l with
  | nil => intro _ b hb; exact hb
  | cons c cs ih =>
      intro hstep b hb
      exact ih (fun c' hc' => hstep c' (List.mem_cons_of_mem c hc'))
        (f b c) (hstep c (List.mem_cons_self c cs) b hb)

/-- A property established by folding over a member `a`, preserved by every
later step, holds after folding over any list containing `a`; a side
invariant `Q` preserved by every step may be assumed when `a` is reached. -/
theorem foldl_mem_prop {α β : Type} {f : β → α → β} {P Q : β → Prop} {a : α}
    (hQ : ∀ b c, Q b → Q (f b c))
    (hstep : ∀ b, Q b → P (f b a))
    (hmono : ∀ b c, P b → P (f b c)) :
    ∀ (l : List α) (b : β), Q b → a ∈ l → P (l.foldl f b) := by
  intro l
  induction l with
  | nil => intro b _ h; cases h
  | cons c cs ih =>
      intro b hq hmem
      rcases List.mem_cons.mp hmem with h | h
      · subst h
        exact foldl_pres hmono cs (f b a) (hstep b hq)
      · exact ih (f b c) (hQ b c hq) h

/-- When the predicate holds for `a ∈ l` and for nothing else in `l`,
`find?` returns `a` itself. -/
theorem find_eq_of_unique {α : Type} (p : α → Bool) (a : α) :
    ∀ l : List α, a ∈ l → p a = true → (∀ b ∈ l, p b = true → b = a) →
      l.find? p = some a := by
  intro l
  induction l with
  | nil => intro h; cases h
  | cons c cs ih =>
      intro hmem hpa huniq
      rcases List.mem_cons.mp hmem with h | h
      · subst h
        simp [List.find?, hpa]
      · by_cases hpc : p c = true
        · have : c = a := huniq c (List.mem_cons_self c cs) hpc
          subst this
          simp [List.find?, hpa]
        · simp only [List.find?, Bool.not_eq_true] at hpc ⊢
          rw [hpc]
          exact ih h hpa (fun b hb => huniq b (List.mem_cons_of_mem c hb))

/-- A `find?` that must succeed: some member satisfies the predicate. -/
theorem find_isSome_of_mem {α : Type} {p : α → Bool} {a : α} {l : List α}
    (hmem : a ∈ l) (hpa : p a = true) : ∃ b, l.find? p = some b := by
  cases h : l.find? p with
  | some b => exact ⟨b, rfl⟩
  | none =>
      rw [List.find?_eq_none] at h
      exact absurd hpa (h a hmem)

/-- Membership-aware pointwise weakening of `Forall₂`. -/
theorem forall₂_imp_mem {α β : Type} {R S : α → β → Prop} :
    ∀ {l₁ : List α} {l₂ : List β}, List.Forall₂ R l₁ l₂ →
      (∀ a ∈ l₁, ∀ b, R a b → S a b) → List.Forall₂ S l₁ l₂ := by
  intro l₁ l₂ h
  induction h with
  | nil => intro _; exact List.Forall₂.nil
  | cons hab _ ih =>
      intro himp
      exact List.Forall₂.cons
        (himp _ (List.mem_cons_self _ _) _ hab)
        (ih (fun a ha b hr => himp a (List.mem_cons_of_mem _ ha) b hr))

/-! ### Shape and frame lemmas for the handlers -/

/-- The start handler either leaves the database unchanged or, when no ACTIVE
session of the department exists, appends the one new ACTIVE session. -/
theorem startSession_shape (t d : String) (dur now : Int) (i : String) (db : DB) :
    (startSession t d dur now i db).2 = db ∨
    ((startSession t d dur now i db).2 =
        { db with sessions := db.sessions ++ [⟨i, d, now, now + dur * 60000, "ACTIVE"⟩] } ∧
      db.sessions.any (isActiveFor d) = false) := by
  unfold startSession
  split
  · exact Or.inl rfl
  · split
    · exact Or.inl rfl
    · split
      · exact Or.inl rfl
      · rename_i h
        exact Or.inr ⟨rfl, by simpa using h⟩

/-- The mark handler either leaves the database unchanged or appends one
PRESENT record for a pair that had no record yet. -/
theorem mark_shape (x : String) (now : Int) (db : DB) :
    (mark x now db).2 = db ∨
    ∃ sid, hasRecord sid x db.records = false ∧
      (mark x now db).2 = { db with records := db.records ++ [⟨sid, x, "PRESENT"⟩] } := by
  unfold mark
  split
  · exact Or.inl rfl
  · split
    · exact Or.inl rfl
    · split
      · exact Or.inl rfl
      · split
        · exact Or.inl rfl
        · rename_i s _ hrec
          exact Or.inr ⟨s.session_id, by simpa using hrec, rfl⟩

/-- The register handler either leaves the database unchanged or appends one
student row. -/
theorem register_shape (n r d i : String) (db : DB) :
    (register n r d i db).2 = db ∨
    (register n r d i db).2 = { db with students := db.students ++ [⟨i, n, r, d⟩] } := by
  unfold register
  split
  · exact Or.inl rfl
  · split
    · exact Or.inl rfl
    · exact Or.inr rfl

/-- The delete handler either leaves the database unchanged or filters the
students table. -/
theorem deleteStudent_shape (t x : String) (db : DB) :
    (deleteStudent t x db).2 = db ∨
    (deleteStudent t x db).2 =
      { db with students := db.students.filter (fun st => !(st.student_id == x)) } := by
  unfold deleteStudent
  split
  · exact Or.inl rfl
  · exact Or.inr rfl

/-- The startup seeding either leaves the database unchanged or fills the
empty teachers table. -/
theorem seedTeacher_shape (db : DB) :
    seedTeacher db = db ∨
    seedTeacher db = { db with teachers := [⟨"t-001", "admin", "admin123"⟩] } := by
  unfold seedTeacher
  split
  · exact Or.inr rfl
  · exact Or.inl rfl

/-! ### Record counting lemmas -/

/-- Existence of a record for a pair is positivity of its count. -/
theorem hasRecord_iff_pos (sid tid : String) (recs : List AttendanceRecord) :
    hasRecord sid tid recs = true ↔ 0 < pairCount sid tid recs := by
  simp [hasRecord, pairCount, List.any_eq_true, List.countP_pos_iff]

/-- Absence of a record for a pair is a zero count. -/
theorem hasRecord_false_iff (sid tid : String) (recs : List AttendanceRecord) :
    hasRecord sid tid recs = false ↔ pairCount sid tid recs = 0 := by
  rw [← Bool.not_eq_true, hasRecord_iff_pos]
  omega

/-- Pair counts add over appends. -/
theorem pairCount_append (a b : String) (r1 r2 : List AttendanceRecord) :
    pairCount a b (r1 ++ r2) = pairCount a b r1 + pairCount a b r2 :=
  List.countP_append _ _ _

/-- Pair count of appending one record. -/
theorem pairCount_snoc (a b : String) (recs : List AttendanceRecord) (r : AttendanceRecord) :
    pairCount a b (recs ++ [r]) =
      pairCount a b recs + (if r.session_id == a && r.student_id == b then 1 else 0) := by
  rw [pairCount_append]
  simp [pairCount, List.countP_cons]

/-- A record present in a list is still present after appending. -/
theorem hasRecord_mono (sid tid : String) (recs tl : List AttendanceRecord)
    (h : hasRecord sid tid recs = true) : hasRecord sid tid (recs ++ tl) = true := by
  rw [hasRecord] at h ⊢
  rw [List.any_append, h, Bool.true_or]

/-! ### insertAbsent lemmas -/

/-- The absentee backfill only appends records. -/
theorem insertAbsent_append (sid d : String) (studs : List Student)
    (recs : List AttendanceRecord) :
    ∃ tl, insertAbsent sid d studs recs = recs ++ tl := by
  rw [insertAbsent]
  refine foldl_pres (P := fun rs => ∃ tl, rs = recs ++ tl) ?_ _ recs ⟨[], by simp⟩
  intro b c ⟨tl, htl⟩
  split
  · exact ⟨tl, htl⟩
  · exact ⟨tl ++ [⟨sid, c.student_id, "ABSENT"⟩], by rw [htl, List.append_assoc]⟩

/-- Every record after the backfill either pre-existed or is a fresh ABSENT
record of the swept session. -/
theorem insertAbsent_new (sid d : String) (studs : List Student)
    (recs : List AttendanceRecord) :
    ∀ r ∈ insertAbsent sid d studs recs,
      r ∈ recs ∨ (r.session_id = sid ∧ r.status = "ABSENT") := by
  rw [insertAbsent]
  refine foldl_pres (P := fun rs => ∀ r ∈ rs, r ∈ recs ∨ (r.session_id = sid ∧ r.status = "ABSENT"))
    ?_ _ recs (fun r hr => Or.inl hr)
  intro b c hb
  split
  · exact hb
  · intro r hr
    rcases List.mem_append.mp hr with h | h
    · exact hb r h
    · rcases List.mem_singleton.mp h with rfl
      exact Or.inr ⟨rfl, rfl⟩

/-- The backfill preserves at-most-one-record-per-pair. -/
theorem insertAbsent_pairUnique (sid d : String) (studs : List Student)
    (recs : List AttendanceRecord) (h : ∀ a b, pairCount a b recs ≤ 1) :
    ∀ a b, pairCount a b (insertAbsent sid d studs recs) ≤ 1 := by
  rw [insertAbsent]
  refine foldl_pres (P := fun rs => ∀ a b, pairCount a b rs ≤ 1) ?_ _ recs h
  intro b c hb a b'
  dsimp only
  split
  · exact hb a b'
  · rename_i hnot
    rw [pairCount_snoc]
    have hz : pairCount sid c.student_id b = 0 :=
      (hasRecord_false_iff _ _ _).mp (by simpa using hnot)
    split
    · rename_i hcond
      simp only [Bool.and_eq_true, beq_iff_eq] at hcond
      obtain ⟨ha, hb'⟩ := hcond
      subst ha; subst hb'
      omega
    · have := hb a b'
      omega

/-- After the backfill every student of the department has a record for the
session. -/
theorem insertAbsent_hasRecord (sid d : String) (studs : List Student)
    (recs : List AttendanceRecord) :
    ∀ st ∈ studs, st.department = d →
      hasRecord sid st.student_id (insertAbsent sid d studs recs) = true := by
  intro st hmem hdept
  rw [insertAbsent]
  have hmemf : st ∈ studs.filter (fun st => st.department == d) :=
    List.mem_filter.mpr ⟨hmem, by simp [hdept]⟩
  refine foldl_mem_prop (Q := fun _ => True)
    (P := fun rs => hasRecord sid st.student_id rs = true)
    (fun _ _ _ => trivial) ?_ ?_ _ recs trivial hmemf
  · intro b _
    dsimp only
    split
    · assumption
    · rw [hasRecord, List.any_append]
      simp [hasRecord]
  · intro b c hb
    dsimp only
    split
    · exact hb
    · exact hasRecord_mono _ _ _ _ hb

/-! ### Sweep lemmas -/

/-- The sweep never touches the students table. -/
theorem sweep_students (now : Int) (db : DB) : (sweep now db).students = db.students := by
  rw [sweep]
  exact foldl_pres (f := sweepOne) (P := fun b => b.students = db.students)
    (fun b c hb => hb) _ db rfl

/-- The sweep never touches the teachers table. -/
theorem sweep_teachers (now : Int) (db : DB) : (sweep now db).teachers = db.teachers := by
  rw [sweep]
  exact foldl_pres (f := sweepOne) (P := fun b => b.teachers = db.teachers)
    (fun b c hb => hb) _ db rfl

/-- The sweep only appends records. -/
theorem sweep_records_append (now : Int) (db : DB) :
    ∃ tl, (sweep now db).records = db.records ++ tl := by
  rw [sweep]
  refine foldl_pres (f := sweepOne) (P := fun b => ∃ tl, b.records = db.records ++ tl)
    ?_ _ db ⟨[], by simp⟩
  intro b c ⟨tl, htl⟩
  obtain ⟨tl2, htl2⟩ := insertAbsent_append c.session_id c.department b.students b.records
  exact ⟨tl ++ tl2, by
    show insertAbsent c.session_id c.department b.students b.records = _
    rw [htl2, htl, List.append_assoc]⟩

/-- The sweep preserves at-most-one-record-per-pair. -/
theorem sweep_pairUnique (now : Int) (db : DB) (h : PairUnique db) :
    PairUnique (sweep now db) := by
  rw [sweep]
  refine foldl_pres (f := sweepOne) (P := fun b => ∀ a b', pairCount a b' b.records ≤ 1)
    ?_ _ db (fun a b' => h a b')
  intro b c hb
  exact insertAbsent_pairUnique c.session_id c.department b.students b.records hb

/-- Every record after a sweep either pre-existed or is an ABSENT backfill of
one of the sessions the sweep selected as expired. -/
theorem sweep_new_from_expired (now : Int) (db : DB) :
    ∀ r ∈ (sweep now db).records, r ∈ db.records ∨
      (r.status = "ABSENT" ∧ ∃ s ∈ expiredSessions now db, r.session_id = s.session_id) := by
  rw [sweep]
  refine foldl_pres_of_mem (f := sweepOne) (P := fun b => ∀ r ∈ b.records, r ∈ db.records ∨
      (r.status = "ABSENT" ∧ ∃ s ∈ expiredSessions now db, r.session_id = s.session_id))
    _ ?_ db (fun r hr => Or.inl hr)
  intro c hc b hb r hr
  rcases insertAbsent_new c.session_id c.department b.students b.records r hr with h | ⟨hsid, hstat⟩
  · exact hb r h
  · exact Or.inr ⟨hstat, c, hc, hsid⟩

/-- After a sweep, every student of an expired session's department has a
record for that session. -/
theorem sweep_hasRecord (now : Int) (db : DB) (s : Session)
    (hs : s ∈ expiredSessions now db) (st : Student) (hmem : st ∈ db.students)
    (hdept : st.department = s.department) :
    hasRecord s.session_id st.student_id (sweep now db).records = true := by
  rw [sweep]
  refine foldl_mem_prop (f := sweepOne) (Q := fun b => b.students = db.students)
    (P := fun b => hasRecord s.session_id st.student_id b.records = true)
    (fun b c hb => hb) ?_ ?_ _ db rfl hs
  · intro b hq
    show hasRecord s.session_id st.student_id
      (insertAbsent s.session_id s.department b.students b.records) = true
    rw [hq]
    exact insertAbsent_hasRecord s.session_id s.department db.students b.records st hmem hdept
  · intro b c hb
    show hasRecord s.session_id st.student_id
      (insertAbsent c.session_id c.department b.students b.records) = true
    obtain ⟨tl, htl⟩ := insertAbsent_append c.session_id c.department b.students b.records
    rw [htl]
    exact hasRecord_mono _ _ _ _ hb

/-- After a sweep, every session sharing the id of an expired session is
INACTIVE. -/
theorem sweep_closed (now : Int) (db : DB) (s : Session)
    (hs : s ∈ expiredSessions now db) :
    ∀ t ∈ (sweep now db).sessions, t.session_id = s.session_id → t.status = "INACTIVE" := by
  rw [sweep]
  refine foldl_mem_prop (f := sweepOne) (Q := fun _ => True)
    (P := fun b => ∀ t ∈ b.sessions, t.session_id = s.session_id → t.status = "INACTIVE")
    (fun _ _ _ => trivial) ?_ ?_ _ db trivial hs
  · intro b _ t ht hid
    show t.status = "INACTIVE"
    have ht' : t ∈ closeSession s.session_id b.sessions := ht
    rw [closeSession] at ht'
    rcases List.mem_map.mp ht' with ⟨t0, _, hmap⟩
    by_cases hc : (t0.session_id == s.session_id) = true
    · rw [if_pos hc] at hmap
      rw [← hmap]
    · rw [if_neg hc] at hmap
      subst hmap
      exact absurd (beq_iff_eq.mpr hid) hc
  · intro b c hb t ht hid
    have ht' : t ∈ closeSession c.session_id b.sessions := ht
    rw [closeSession] at ht'
    rcases List.mem_map.mp ht' with ⟨t0, ht0, hmap⟩
    by_cases hc : (t0.session_id == c.session_id) = true
    · rw [if_pos hc] at hmap
      rw [← hmap]
    · rw [if_neg hc] at hmap
      subst hmap
      exact hb t0 ht0 hid

/-- Auxiliary induction for idempotence: folding the sweep body over a worklist
that covers every expired ACTIVE session leaves no expired ACTIVE session. -/
theorem sweep_aux_no_expired (now : Int) :
    ∀ (l : List Session) (b : DB),
      (∀ t ∈ b.sessions, t.status = "ACTIVE" → t.end_time ≤ now →
        ∃ s' ∈ l, s'.session_id = t.session_id) →
      ∀ t ∈ (l.foldl sweepOne b).sessions, t.status = "ACTIVE" → ¬ t.end_time ≤ now := by
  intro l
  induction l with
  | nil =>
      intro b hinv t ht hact hle
      rcases hinv t ht hact hle with ⟨s', hs', _⟩
      cases hs'
  | cons c cs ih =>
      intro b hinv
      apply ih (sweepOne b c)
      intro t ht hact hle
      have ht' : t ∈ closeSession c.session_id b.sessions := ht
      rw [closeSession] at ht'
      rcases List.mem_map.mp ht' with ⟨t0, ht0, hmap⟩
      by_cases hc : (t0.session_id == c.session_id) = true
      · rw [if_pos hc] at hmap
        rw [← hmap] at hact
        simp at hact
      · rw [if_neg hc] at hmap
        subst hmap
        rcases hinv t0 ht0 hact hle with ⟨s', hs', hsid⟩
        rcases List.mem_cons.mp hs' with rfl | hmem
        · exact absurd (beq_iff_eq.mpr hsid.symm) (by simpa [BEq.comm] using hc)
        · exact ⟨s', hmem, hsid⟩

/-- After a sweep, no ACTIVE session with an elapsed end_time remains. -/
theorem sweep_no_expired (now : Int) (db : DB) :
    expiredSessions now (sweep now db) = [] := by
  rw [expiredSessions, List.filter_eq_nil_iff]
  intro t ht
  have h := sweep_aux_no_expired now (expiredSessions now db) db ?_ t ht
  · simp only [Bool.and_eq_true, beq_iff_eq, decide_eq_true_eq, not_and]
    intro hact
    exact h hact
  · intro t' ht' hact hle
    exact ⟨t', List.mem_filter.mpr ⟨ht', by simp [hact, hle]⟩, rfl⟩

/-- Running the sweep twice at the same instant is running it once. -/
theorem sweep_sweep (now : Int) (db : DB) :
    sweep now (sweep now db) = sweep now db := by
  conv_lhs => rw [sweep]
  rw [sweep_no_expired]
  rfl

/-! ### Active-session counting -/

/-- Closing a session never increases the number of ACTIVE sessions of any
department. -/
theorem closeSession_activeCount (d sid : String) (l : List Session) :
    (closeSession sid l).countP (isActiveFor d) ≤ l.countP (isActiveFor d) := by
  rw [closeSession, List.countP_map]
  apply List.countP_mono_left
  intro t _ h
  simp only [Function.comp] at h
  by_cases hc : (t.session_id == sid) = true
  · rw [if_pos hc] at h
    simp [isActiveFor] at h
  · rwa [if_neg hc] at h

/-- The sweep preserves at-most-one-ACTIVE-session-per-department. -/
theorem sweep_uniqueActive (now : Int) (db : DB) (h : UniqueActivePerDept db) :
    UniqueActivePerDept (sweep now db) := by
  rw [sweep]
  refine foldl_pres (f := sweepOne) (P := fun b => ∀ d, activeCount d b ≤ 1)
    ?_ _ db (fun d => h d)
  intro b c hb d
  calc (closeSession c.session_id b.sessions).countP (isActiveFor d)
      ≤ b.sessions.countP (isActiveFor d) := closeSession_activeCount d c.session_id b.sessions
    _ ≤ 1 := hb d

/-- The start handler preserves at-most-one-ACTIVE-session-per-department. -/
theorem startSession_uniqueActive (t d : String) (dur now : Int) (i : String)
    (db : DB) (h : UniqueActivePerDept db) :
    UniqueActivePerDept (startSession t d dur now i db).2 := by
  rcases startSession_shape t d dur now i db with heq | ⟨heq, hnone⟩
  · rw [heq]; exact h
  · rw [heq]
    intro d'
    show (db.sessions ++ [(⟨i, d, now, now + dur * 60000, "ACTIVE"⟩ : Session)]).countP
      (isActiveFor d') ≤ 1
    rw [List.countP_append]
    by_cases hd : d' = d
    · subst hd
      have hz : db.sessions.countP (isActiveFor d') = 0 := by
        rw [List.countP_eq_zero]
        intro s hs hp
        have : db.sessions.any (isActiveFor d') = true := List.any_eq_true.mpr ⟨s, hs, hp⟩
        rw [hnone] at this
        cases this
      rw [hz]
      simp [isActiveFor]
    · have : [(⟨i, d, now, now + dur * 60000, "ACTIVE"⟩ : Session)].countP (isActiveFor d') = 0 := by
        simp [isActiveFor, hd]
        intro hcontra
        exact absurd hcontra.symm hd
      rw [this]
      simpa using h d'

/-- Every operation preserves at-most-one-ACTIVE-session-per-department. -/
theorem applyOp_uniqueActive (op : Op) (db : DB) (h : UniqueActivePerDept db) :
    UniqueActivePerDept (applyOp op db) := by
  cases op with
  | opSeed =>
      rcases seedTeacher_shape db with heq | heq <;>
        · show UniqueActivePerDept (seedTeacher db)
          rw [heq]
          intro d
          exact h d
  | opRegister n r d i =>
      rcases register_shape n r d i db with heq | heq <;>
        · show UniqueActivePerDept (register n r d i db).2
          rw [heq]
          intro d'
          exact h d'
  | opStart t d dur now i => exact startSession_uniqueActive t d dur now i db h
  | opMark x now =>
      rcases mark_shape x now db with heq | ⟨sid, _, heq⟩ <;>
        · show UniqueActivePerDept (mark x now db).2
          rw [heq]
          intro d
          exact h d
  | opSweep now => exact sweep_uniqueActive now db h
  | opDelete t x =>
      rcases deleteStudent_shape t x db with heq | heq <;>
        · show UniqueActivePerDept (deleteStudent t x db).2
          rw [heq]
          intro d
          exact h d

/-! ### Record preservation across all operations -/

/-- Every operation only appends to the attendance_records table: existing
records are never removed or modified. -/
theorem applyOp_records_append (op : Op) (db : DB) :
    ∃ tl, (applyOp op db).records = db.records ++ tl := by
  cases op with
  | opSeed =>
      rcases seedTeacher_shape db with heq | heq <;>
        exact ⟨[], by show (seedTeacher db).records = _; rw [heq]; simp⟩
  | opRegister n r d i =>
      rcases register_shape n r d i db with heq | heq <;>
        exact ⟨[], by show (register n r d i db).2.records = _; rw [heq]; simp⟩
  | opStart t d dur now i =>
      rcases startSession_shape t d dur now i db with heq | ⟨heq, _⟩ <;>
        exact ⟨[], by show (startSession t d dur now i db).2.records = _; rw [heq]; simp⟩
  | opMark x now =>
      rcases mark_shape x now db with heq | ⟨sid, _, heq⟩
      · exact ⟨[], by show (mark x now db).2.records = _; rw [heq]; simp⟩
      · exact ⟨[⟨sid, x, "PRESENT"⟩], by show (mark x now db).2.records = _; rw [heq]⟩
  | opSweep now => exact sweep_records_append now db
  | opDelete t x =>
      rcases deleteStudent_shape t x db with heq | heq <;>
        exact ⟨[], by show (deleteStudent t x db).2.records = _; rw [heq]; simp⟩

/-- Every operation preserves at-most-one-record-per-pair. -/
theorem applyOp_pairUnique (op : Op) (db : DB) (h : PairUnique db) :
    PairUnique (applyOp op db) := by
  cases op with
  | opSeed =>
      rcases seedTeacher_shape db with heq | heq <;>
        · intro sid tid
          show pairCount sid tid (seedTeacher db).records ≤ 1
          rw [heq]
          exact h sid tid
  | opRegister n r d i =>
      rcases register_shape n r d i db with heq | heq <;>
        · intro sid tid
          show pairCount sid tid (register n r d i db).2.records ≤ 1
          rw [heq]
          exact h sid tid
  | opStart t d dur now i =>
      rcases startSession_shape t d dur now i db with heq | ⟨heq, _⟩ <;>
        · intro sid tid
          show pairCount sid tid (startSession t d dur now i db).2.records ≤ 1
          rw [heq]
          exact h sid tid
  | opMark x now =>
      rcases mark_shape x now db with heq | ⟨sid0, hfree, heq⟩
      · intro sid tid
        show pairCount sid tid (mark x now db).2.records ≤ 1
        rw [heq]
        exact h sid tid
      · intro sid tid
        show pairCount sid tid (mark x now db).2.records ≤ 1
        rw [heq]
        show pairCount sid tid (db.records ++ [⟨sid0, x, "PRESENT"⟩]) ≤ 1
        rw [pairCount_snoc]
        have hz : pairCount sid0 x db.records = 0 := (hasRecord_false_iff _ _ _).mp hfree
        split
        · rename_i hcond
          simp only [Bool.and_eq_true, beq_iff_eq] at hcond
          obtain ⟨ha, hb'⟩ := hcond
          subst ha; subst hb'
          omega
        · have := h sid tid
          omega
  | opSweep now => exact sweep_pairUnique now db h
  | opDelete t x =>
      rcases deleteStudent_shape t x db with heq | heq <;>
        · intro sid tid
          show pairCount sid tid (deleteStudent t x db).2.records ≤ 1
          rw [heq]
          exact h sid tid

/-! ### Session evolution (claim C7 machinery) -/

/-- How one operation may change one pre-existing session row: identity,
department and both timestamps are immutable, and the only status change is
ACTIVE to INACTIVE, performed by a sweep whose time has reached the session's
end_time. -/
def SessionEvolves (op : Op) (t t' : Session) : Prop :=
  t'.session_id = t.session_id ∧ t'.department = t.department ∧
  t'.start_time = t.start_time ∧ t'.end_time = t.end_time ∧
  (t' = t ∨ (t.status = "ACTIVE" ∧ t'.status = "INACTIVE" ∧
    ∃ now, op = .opSweep now ∧ t.end_time ≤ now))

/-- Session evolution is reflexive. -/
theorem sessionEvolves_refl (op : Op) (t : Session) : SessionEvolves op t t :=
  ⟨rfl, rfl, rfl, rfl, Or.inl rfl⟩

/-- Session evolution under a fixed operation is transitive. -/
theorem sessionEvolves_trans (op : Op) (a b c : Session)
    (h1 : SessionEvolves op a b) (h2 : SessionEvolves op b c) :
    SessionEvolves op a c := by
  obtain ⟨i1, d1, s1, e1, st1⟩ := h1
  obtain ⟨i2, d2, s2, e2, st2⟩ := h2
  refine ⟨i2.trans i1, d2.trans d1, s2.trans s1, e2.trans e1, ?_⟩
  rcases st1 with h | ⟨ha, hb, now1, hop1, hle1⟩
  · rw [h] at st2
    exact st2
  · rcases st2 with h2' | ⟨ha2, _, _, _, _⟩
    · rw [h2']
      exact Or.inr ⟨ha, hb, now1, hop1, hle1⟩
    · rw [hb] at ha2
      exact absurd ha2 (by decide)

/-- Pairwise-distinct session ids, as the session_id PRIMARY KEY guarantees. -/
def SessionIdsDistinct (db : DB) : Prop :=
  db.sessions.Pairwise (fun a b => a.session_id ≠ b.session_id)

/-- One sweep iteration evolves every session of the accumulator, provided the
accumulator's sessions evolved from a database with distinct session ids and
the swept session is one of that database's expired sessions. -/
theorem sweepOne_forall₂ (now : Int) (db : DB) (c : Session)
    (hids : SessionIdsDistinct db) (hc : c ∈ expiredSessions now db) (b : DB)
    (hb : List.Forall₂ (SessionEvolves (Op.opSweep now)) db.sessions b.sessions) :
    List.Forall₂ (SessionEvolves (Op.opSweep now)) db.sessions
      (closeSession c.session_id b.sessions) := by
  have hc' := List.mem_filter.mp hc
  obtain ⟨hcmem, hcp⟩ := hc'
  simp only [Bool.and_eq_true, beq_iff_eq, decide_eq_true_eq] at hcp
  obtain ⟨hcact, hcle⟩ := hcp
  rw [closeSession, List.forall₂_map_right_iff]
  refine forall₂_imp_mem hb ?_
  intro t ht t' htt'
  dsimp only
  split
  · rename_i hcond
    rw [beq_iff_eq] at hcond
    obtain ⟨i1, d1, s1, e1, _⟩ := htt'
    have htc : t.session_id = c.session_id := by rw [← i1, hcond]
    have hteq : t = c := by
      by_contra hne
      have hids' : db.sessions.Pairwise (fun a b => a.session_id ≠ b.session_id) := hids
      refine List.Pairwise.forall (R := fun a b => a.session_id ≠ b.session_id)
        ?_ hids' ht hcmem hne htc
      intro a b h heq
      exact h heq.symm
    refine ⟨i1, d1, s1, e1, ?_⟩
    refine Or.inr ⟨?_, rfl, now, rfl, ?_⟩
    · rw [hteq]; exact hcact
    · rw [hteq]; exact hcle
  · exact htt'

/-- The sweep evolves every pre-existing session row. -/
theorem sweep_forall₂ (now : Int) (db : DB) (hids : SessionIdsDistinct db) :
    List.Forall₂ (SessionEvolves (Op.opSweep now)) db.sessions (sweep now db).sessions := by
  rw [sweep]
  refine foldl_pres_of_mem (f := sweepOne)
    (P := fun b => List.Forall₂ (SessionEvolves (Op.opSweep now)) db.sessions b.sessions)
    _ ?_ db (List.forall₂_same.mpr (fun t _ => sessionEvolves_refl _ t))
  intro c hc b hb
  exact sweepOne_forall₂ now db c hids hc b hb

/-! ### Distinct-id helper -/

/-- Two different sessions of a database with pairwise-distinct session ids
have different ids. -/
theorem sessionIds_ne (db : DB) (hids : SessionIdsDistinct db) (a b : Session)
    (ha : a ∈ db.sessions) (hb : b ∈ db.sessions) (hne : a ≠ b) :
    a.session_id ≠ b.session_id := by
  have hids' : db.sessions.Pairwise (fun a b => a.session_id ≠ b.session_id) := hids
  refine List.Pairwise.forall ?_ hids' ha hb hne
  intro x y h heq
  exact h heq.symm

/-! ### Witness databases -/

/-- Witness database: one teacher, two CS students, one ACTIVE CS session
over the window [0, 60000], one PRESENT record for the first student. -/
def dbW : DB :=
  { students := [⟨"stu-1", "Asha", "R1", "CS"⟩, ⟨"stu-2", "Ben", "R2", "CS"⟩]
    teachers := [⟨"t-001", "admin", "admin123"⟩]
    sessions := [⟨"ses-1", "CS", 0, 60000, "ACTIVE"⟩]
    records := [⟨"ses-1", "stu-1", "PRESENT"⟩] }

/-- Witness database: empty. -/
def dbE : DB := ⟨[], [], [], []⟩

/-- Witness database: only the seeded teacher. -/
def dbT : DB := ⟨[], [⟨"t-001", "admin", "admin123"⟩], [], []⟩

/-! ### Claims -/

/-- C1: for every department at most one ACTIVE session exists at any
instant — the invariant is preserved by every operation — and a
start_session call for a department that already has an ACTIVE session
(with well-formed fields and a known teacher, so that the handler reaches
its conflict check) fails with the "Session already active" conflict and
leaves the database, in particular the sessions table, unchanged. -/
theorem c1_one_active_session_per_department (op : Op) (db : DB)
    (hinv : UniqueActivePerDept db) :
    UniqueActivePerDept (applyOp op db) ∧
    ∀ teacher_id department : String, ∀ duration_minutes now : Int, ∀ new_id : String,
      teacher_id ≠ "" → department ≠ "" → duration_minutes ≠ 0 →
      (∃ t ∈ db.teachers, t.teacher_id = teacher_id) →
      (∃ s ∈ db.sessions, s.status = "ACTIVE" ∧ s.department = department) →
      startSession teacher_id department duration_minutes now new_id db =
        (.alreadyActive, db) := by
  refine ⟨applyOp_uniqueActive op db hinv, ?_⟩
  intro tid dept dur now nid htid hdept hdur hteacher hactive
  obtain ⟨t, ht, htid'⟩ := hteacher
  obtain ⟨s, hs, hact, hsdept⟩ := hactive
  have hcond : (tid == "" || dept == "" || dur == 0) = false := by
    simp [htid, hdept, hdur]
  obtain ⟨t', hfind⟩ := find_isSome_of_mem (p := fun t => t.teacher_id == tid) ht
    (by simp [htid'])
  have hany : db.sessions.any (isActiveFor dept) = true :=
    List.any_eq_true.mpr ⟨s, hs, by simp [isActiveFor, hact, hsdept]⟩
  simp [startSession, hcond, hfind, hany]

/-- C1 witness: the invariant and the conflict at a concrete database. -/
theorem c1_witness :
    activeCount "CS" (applyOp Op.opSeed dbW) ≤ 1 ∧
    startSession "t-001" "CS" 5 0 "ses-2" dbW = (.alreadyActive, dbW) := by
  have hinv : UniqueActivePerDept dbW := by
    intro d
    show List.countP (isActiveFor d) dbW.sessions ≤ 1
    simp only [dbW, List.countP_cons, List.countP_nil]
    split <;> omega
  obtain ⟨h1, h2⟩ := c1_one_active_session_per_department Op.opSeed dbW hinv
  refine ⟨h1 "CS", h2 "t-001" "CS" 5 0 "ses-2" (by decide) (by decide) (by decide)
    ⟨⟨"t-001", "admin", "admin123"⟩, by simp [dbW], rfl⟩
    ⟨⟨"ses-1", "CS", 0, 60000, "ACTIVE"⟩, by simp [dbW], rfl, rfl⟩⟩

/-- C2: at most one AttendanceRecord per (session, student) ever exists — the
uniqueness invariant is preserved by every operation — a record once created
is never overwritten or removed (every operation only appends), and after a
sweep has closed a session every student then in its department has exactly
one record for it. -/
theorem c2_record_per_pair_first_write_wins (op : Op) (db : DB)
    (hinv : PairUnique db) :
    PairUnique (applyOp op db) ∧
    (∃ tl, (applyOp op db).records = db.records ++ tl) ∧
    ∀ now : Int, ∀ s ∈ db.sessions, s.status = "ACTIVE" → s.end_time ≤ now →
      ∀ st ∈ db.students, st.department = s.department →
        pairCount s.session_id st.student_id (sweep now db).records = 1 := by
  refine ⟨applyOp_pairUnique op db hinv, applyOp_records_append op db, ?_⟩
  intro now s hs hact hle st hst hdept
  have hsx : s ∈ expiredSessions now db :=
    List.mem_filter.mpr ⟨hs, by simp [hact, hle]⟩
  have h1 : hasRecord s.session_id st.student_id (sweep now db).records = true :=
    sweep_hasRecord now db s hsx st hst hdept
  have h2 : 0 < pairCount s.session_id st.student_id (sweep now db).records :=
    (hasRecord_iff_pos _ _ _).mp h1
  have h3 : pairCount s.session_id st.student_id (sweep now db).records ≤ 1 :=
    sweep_pairUnique now db hinv s.session_id st.student_id
  omega

/-- C2 witness: pair uniqueness and the exactly-one-record-after-sweep fact at
a concrete database. -/
theorem c2_witness :
    pairCount "ses-1" "stu-1" (applyOp (Op.opSweep 100000) dbW).records ≤ 1 ∧
    pairCount "ses-1" "stu-2" (sweep 100000 dbW).records = 1 := by
  have hinv : PairUnique dbW := by
    intro sid tid
    show List.countP _ dbW.records ≤ 1
    simp only [dbW, List.countP_cons, List.countP_nil]
    split <;> omega
  obtain ⟨h1, _, h3⟩ := c2_record_per_pair_first_write_wins (Op.opSweep 100000) dbW hinv
  refine ⟨h1 "ses-1" "stu-1", ?_⟩
  exact h3 100000 ⟨"ses-1", "CS", 0, 60000, "ACTIVE"⟩ (by simp [dbW]) rfl (by decide)
    ⟨"stu-2", "Ben", "R2", "CS"⟩ (by simp [dbW]) rfl

/-- C3: a sweep run at time `now` closes every ACTIVE session whose end_time
has elapsed (every row with its id becomes INACTIVE), only appends records,
gives every student of the session's department a record for it, and for a
student who lacked one the record it holds afterwards is an ABSENT one. -/
theorem c3_sweep_backfills_and_closes (db : DB) (now : Int) (s : Session)
    (hs : s ∈ db.sessions) (hact : s.status = "ACTIVE") (hle : s.end_time ≤ now) :
    (∀ t ∈ (sweep now db).sessions, t.session_id = s.session_id →
      t.status = "INACTIVE") ∧
    (∃ tl, (sweep now db).records = db.records ++ tl) ∧
    (∀ st ∈ db.students, st.department = s.department →
      hasRecord s.session_id st.student_id (sweep now db).records = true) ∧
    (∀ st ∈ db.students, st.department = s.department →
      pairCount s.session_id st.student_id db.records = 0 →
      ∃ r ∈ (sweep now db).records, r.session_id = s.session_id ∧
        r.student_id = st.student_id ∧ r.status = "ABSENT") := by
  have hsx : s ∈ expiredSessions now db :=
    List.mem_filter.mpr ⟨hs, by simp [hact, hle]⟩
  refine ⟨sweep_closed now db s hsx, sweep_records_append now db,
    fun st hst hdept => sweep_hasRecord now db s hsx st hst hdept, ?_⟩
  intro st hst hdept hzero
  have h1 : hasRecord s.session_id st.student_id (sweep now db).records = true :=
    sweep_hasRecord now db s hsx st hst hdept
  rw [hasRecord, List.any_eq_true] at h1
  obtain ⟨r, hr, hp⟩ := h1
  simp only [Bool.and_eq_true, beq_iff_eq] at hp
  obtain ⟨hpsid, hptid⟩ := hp
  refine ⟨r, hr, hpsid, hptid, ?_⟩
  rcases sweep_new_from_expired now db r hr with hold | ⟨habs, _⟩
  · exfalso
    have : 0 < pairCount s.session_id st.student_id db.records := by
      rw [pairCount, List.countP_pos_iff]
      exact ⟨r, hold, by simp [hpsid, hptid]⟩
    omega
  · exact habs

/-- C3 witness: after the window has elapsed the unmarked student has a
record and the session row is INACTIVE, at a concrete database. -/
theorem c3_witness :
    hasRecord "ses-1" "stu-2" (sweep 100000 dbW).records = true := by
  obtain ⟨_, _, h3, _⟩ := c3_sweep_backfills_and_closes dbW 100000
    ⟨"ses-1", "CS", 0, 60000, "ACTIVE"⟩ (by simp [dbW]) rfl (by decide)
  exact h3 ⟨"stu-2", "Ben", "R2", "CS"⟩ (by simp [dbW]) rfl

/-- C4: the sweep is idempotent on closed sessions — an INACTIVE session row
survives any sweep unchanged, the sweep inserts no record carrying its
session id (under the session_id primary key), and running the sweep twice at
one instant equals running it once. -/
theorem c4_sweep_idempotent_on_closed (db : DB) (now : Int)
    (hids : SessionIdsDistinct db) :
    (∀ s ∈ db.sessions, s.status = "INACTIVE" →
      s ∈ (sweep now db).sessions ∧
      ∀ r ∈ (sweep now db).records, r.session_id = s.session_id →
        r ∈ db.records) ∧
    sweep now (sweep now db) = sweep now db := by
  refine ⟨?_, sweep_sweep now db⟩
  intro s hs hinact
  have hne : ∀ c ∈ expiredSessions now db, s.session_id ≠ c.session_id := by
    intro c hc
    have hc' := List.mem_filter.mp hc
    obtain ⟨hcmem, hcp⟩ := hc'
    simp only [Bool.and_eq_true, beq_iff_eq, decide_eq_true_eq] at hcp
    have hsc : s ≠ c := by
      intro heq
      rw [← heq] at hcp
      rw [hinact] at hcp
      exact absurd hcp.1 (by decide)
    exact sessionIds_ne db hids s c hs hcmem hsc
  constructor
  · rw [sweep]
    refine foldl_pres_of_mem (f := sweepOne) (P := fun b => s ∈ b.sessions)
      _ ?_ db hs
    intro c hc b hb
    show s ∈ closeSession c.session_id b.sessions
    rw [closeSession]
    refine List.mem_map.mpr ⟨s, hb, ?_⟩
    rw [if_neg]
    intro hbeq
    exact hne c hc (beq_iff_eq.mp hbeq)
  · intro r hr hrid
    rcases sweep_new_from_expired now db r hr with hold | ⟨_, c, hc, hcid⟩
    · exact hold
    · exfalso
      exact hne c hc (by rw [← hrid, hcid])

/-- C4 witness: double sweep equals single sweep at a concrete database. -/
theorem c4_witness :
    sweep 100000 (sweep 100000 dbW) = sweep 100000 dbW := by
  have hids : SessionIdsDistinct dbW := by
    show dbW.sessions.Pairwise _
    simp [dbW]
  exact (c4_sweep_idempotent_on_closed dbW 100000 hids).2

/-- C5: a second mark for a student who already has a record for the
currently active session of their department (the unique ACTIVE session with
end_time still in the future) fails with the "Already marked" conflict and
leaves the database — in particular the existing record — unchanged. -/
theorem c5_second_mark_conflict (db : DB) (x : String) (now : Int)
    (st : Student) (s : Session)
    (hx : x ≠ "")
    (hst : st ∈ db.students) (hstid : st.student_id = x)
    (hstu : ∀ st2 ∈ db.students, st2.student_id = x → st2 = st)
    (hs : s ∈ db.sessions) (hact : s.status = "ACTIVE") (hend : now < s.end_time)
    (hdept : s.department = st.department)
    (hsu : ∀ s2 ∈ db.sessions, s2.status = "ACTIVE" →
      s2.department = st.department → s2 = s)
    (hrec : hasRecord s.session_id x db.records = true) :
    mark x now db = (.alreadyMarked, db) := by
  have hfind1 : db.students.find? (fun t => t.student_id == x) = some st :=
    find_eq_of_unique _ st db.students hst (by simp [hstid])
      (fun b hb hpb => hstu b hb (by simpa using hpb))
  have hfind2 : db.sessions.find? (fun s2 => s2.status == "ACTIVE" &&
      decide (now < s2.end_time) && s2.department == st.department) = some s :=
    find_eq_of_unique _ s db.sessions hs (by simp [hact, hend, hdept])
      (fun b hb hpb => by
        simp only [Bool.and_eq_true, beq_iff_eq, decide_eq_true_eq] at hpb
        exact hsu b hb hpb.1.1 hpb.2)
  have hx' : (x == "") = false := by simpa using hx
  simp [mark, hx', hfind1, hfind2, hrec]

/-- C5 witness: the double mark conflict at a concrete database. -/
theorem c5_witness : mark "stu-1" 0 dbW = (.alreadyMarked, dbW) := by
  refine c5_second_mark_conflict dbW "stu-1" 0 ⟨"stu-1", "Asha", "R1", "CS"⟩
    ⟨"ses-1", "CS", 0, 60000, "ACTIVE"⟩ (by decide) (by simp [dbW]) rfl ?_
    (by simp [dbW]) rfl (by decide) rfl ?_ (by decide)
  · intro st2 hmem heq
    simp only [dbW, List.mem_cons, List.not_mem_nil, or_false] at hmem
    rcases hmem with rfl | rfl
    · rfl
    · exact absurd heq (by decide)
  · intro s2 hmem _ _
    simp only [dbW, List.mem_cons, List.not_mem_nil, or_false] at hmem
    exact hmem

/-- C6 counterexample: with an empty (falsy) student_id — which matches no
Student, so no ACTIVE session for its department exists — the handler fails
with the "Student ID missing" validation response, not the "Attendance
closed or invalid" (NotActiveError) response the claim asserts for every
such call. -/
theorem c6_counterexample :
    mark "" 0 dbE = (.missingId, dbE) ∧
    (mark "" 0 dbE).1 ≠ MarkResult.notActive := by
  constructor
  · rfl
  · decide

/-- C6 (amended): for a non-empty student_id, mark fails with the
NotActiveError response and changes nothing whenever no ACTIVE session of
the student's department has end_time > now — including when the student_id
matches no Student — while an empty student_id instead fails the falsy-field
check; and when such a session exists (uniquely) and the pair has no record
yet, mark succeeds and appends the PRESENT record for that session. -/
theorem c6_mark_not_active_or_inserts (db : DB) (x : String) (now : Int)
    (hx : x ≠ "") :
    ((∀ st ∈ db.students, st.student_id = x →
        ∀ s ∈ db.sessions, s.status = "ACTIVE" → s.department = st.department →
          ¬ now < s.end_time) →
      mark x now db = (.notActive, db)) ∧
    (∀ st s, st ∈ db.students → st.student_id = x →
      (∀ st2 ∈ db.students, st2.student_id = x → st2 = st) →
      s ∈ db.sessions → s.status = "ACTIVE" → now < s.end_time →
      s.department = st.department →
      (∀ s2 ∈ db.sessions, s2.status = "ACTIVE" → now < s2.end_time →
        s2.department = st.department → s2 = s) →
      hasRecord s.session_id x db.records = false →
      mark x now db =
        (.marked, { db with records := db.records ++ [⟨s.session_id, x, "PRESENT"⟩] })) := by
  have hx' : (x == "") = false := by simpa using hx
  constructor
  · intro hnone
    cases hfind : db.students.find? (fun t => t.student_id == x) with
    | none => simp [mark, hx', hfind]
    | some st =>
        have hstmem : st ∈ db.students := List.mem_of_find?_eq_some hfind
        have hstid : st.student_id = x := by
          have := List.find?_some hfind
          simpa using this
        have hfind2 : db.sessions.find? (fun s2 => s2.status == "ACTIVE" &&
            decide (now < s2.end_time) && s2.department == st.department) = none := by
          rw [List.find?_eq_none]
          intro s2 hs2 hp
          simp only [Bool.and_eq_true, beq_iff_eq, decide_eq_true_eq] at hp
          exact hnone st hstmem hstid s2 hs2 hp.1.1 hp.2 hp.1.2
        simp [mark, hx', hfind, hfind2]
  · intro st s hst hstid hstu hs hact hend hdept hsu hfree
    have hfind1 : db.students.find? (fun t => t.student_id == x) = some st :=
      find_eq_of_unique _ st db.students hst (by simp [hstid])
        (fun b hb hpb => hstu b hb (by simpa using hpb))
    have hfind2 : db.sessions.find? (fun s2 => s2.status == "ACTIVE" &&
        decide (now < s2.end_time) && s2.department == st.department) = some s :=
      find_eq_of_unique _ s db.sessions hs (by simp [hact, hend, hdept])
        (fun b hb hpb => by
          simp only [Bool.and_eq_true, beq_iff_eq, decide_eq_true_eq] at hpb
          exact hsu b hb hpb.1.1 hpb.1.2 hpb.2)
    simp [mark, hx', hfind1, hfind2, hfree]

/-- C6 witness: the NotActive failure below an unknown id and the successful
PRESENT insert at a concrete database. -/
theorem c6_witness :
    mark "ghost" 0 dbE = (.notActive, dbE) ∧
    mark "stu-2" 0 dbW =
      (.marked, { dbW with records := dbW.records ++ [⟨"ses-1", "stu-2", "PRESENT"⟩] }) := by
  constructor
  · exact (c6_mark_not_active_or_inserts dbE "ghost" 0 (by decide)).1
      (by intro st hmem; simp [dbE] at hmem)
  · refine (c6_mark_not_active_or_inserts dbW "stu-2" 0 (by decide)).2
      ⟨"stu-2", "Ben", "R2", "CS"⟩ ⟨"ses-1", "CS", 0, 60000, "ACTIVE"⟩
      (by simp [dbW]) rfl ?_ (by simp [dbW]) rfl (by decide) rfl ?_ (by decide)
    · intro st2 hmem heq
      simp only [dbW, List.mem_cons, List.not_mem_nil, or_false] at hmem
      rcases hmem with rfl | rfl
      · exact absurd heq (by decide)
      · rfl
    · intro s2 hmem _ _ _
      simp only [dbW, List.mem_cons, List.not_mem_nil, or_false] at hmem
      exact hmem

/-- C7: pre-existing session rows only evolve by keeping their id,
department, start_time and end_time and either keeping their status or
moving from ACTIVE to INACTIVE through a sweep whose time has reached their
end_time; INACTIVE is terminal; any other rows an operation produces are
newly appended ones. -/
theorem c7_session_state_machine (op : Op) (db : DB)
    (hids : SessionIdsDistinct db) :
    ∃ pre tl, (applyOp op db).sessions = pre ++ tl ∧
      List.Forall₂ (SessionEvolves op) db.sessions pre := by
  have hrefl : List.Forall₂ (SessionEvolves op) db.sessions db.sessions :=
    List.forall₂_same.mpr (fun t _ => sessionEvolves_refl op t)
  cases op with
  | opSeed =>
      refine ⟨db.sessions, [], ?_, hrefl⟩
      show (seedTeacher db).sessions = _
      rcases seedTeacher_shape db with heq | heq <;> rw [heq] <;> simp
  | opRegister n r d i =>
      refine ⟨db.sessions, [], ?_, hrefl⟩
      show (register n r d i db).2.sessions = _
      rcases register_shape n r d i db with heq | heq <;> rw [heq] <;> simp
  | opStart t d dur now i =>
      rcases startSession_shape t d dur now i db with heq | ⟨heq, _⟩
      · refine ⟨db.sessions, [], ?_, hrefl⟩
        show (startSession t d dur now i db).2.sessions = _
        rw [heq]; simp
      · refine ⟨db.sessions, [⟨i, d, now, now + dur * 60000, "ACTIVE"⟩], ?_, hrefl⟩
        show (startSession t d dur now i db).2.sessions = _
        rw [heq]
  | opMark x now =>
      refine ⟨db.sessions, [], ?_, hrefl⟩
      show (mark x now db).2.sessions = _
      rcases mark_shape x now db with heq | ⟨sid, _, heq⟩ <;> rw [heq] <;> simp
  | opSweep now =>
      exact ⟨(sweep now db).sessions, [], by simp [applyOp], sweep_forall₂ now db hids⟩
  | opDelete t x =>
      refine ⟨db.sessions, [], ?_, hrefl⟩
      show (deleteStudent t x db).2.sessions = _
      rcases deleteStudent_shape t x db with heq | heq <;> rw [heq] <;> simp

/-- C7 witness: the evolution statement for a sweep of a concrete database. -/
theorem c7_witness :
    ∃ pre tl, (applyOp (Op.opSweep 100000) dbW).sessions = pre ++ tl ∧
      List.Forall₂ (SessionEvolves (Op.opSweep 100000)) dbW.sessions pre := by
  refine c7_session_state_machine (Op.opSweep 100000) dbW ?_
  show dbW.sessions.Pairwise _
  simp [dbW]

/-- C8 counterexample: duration_minutes = -1 is not strictly positive, yet the
falsy-field check (which only catches 0) lets the call through and a Session
row is created, with an end_time already in the past. -/
theorem c8_counterexample :
    startSession "t-001" "CS" (-1) 0 "ses-neg" dbT =
      (.ok "ses-neg",
        { dbT with sessions := [⟨"ses-neg", "CS", 0, -60000, "ACTIVE"⟩] }) := by
  decide

/-- C8 (amended): the start handler rejects a call, changing nothing, when
department is empty or duration_minutes is 0 (the JavaScript-falsy values),
and a call can only create a Session when department is non-empty and
duration_minutes is nonzero — but a negative duration_minutes passes the
check and can create a Session, so "duration_minutes > 0" is not enforced. -/
theorem c8_start_validation (db : DB) (teacher_id department : String)
    (duration_minutes now : Int) (new_id : String) :
    ((department = "" ∨ duration_minutes = 0) →
      startSession teacher_id department duration_minutes now new_id db =
        (.missingFields, db)) ∧
    ((startSession teacher_id department duration_minutes now new_id db).2 ≠ db →
      department ≠ "" ∧ duration_minutes ≠ 0) := by
  have haux : (department = "" ∨ duration_minutes = 0) →
      startSession teacher_id department duration_minutes now new_id db =
        (.missingFields, db) := by
    intro h
    have hcond : (teacher_id == "" || department == "" || duration_minutes == 0) = true := by
      rcases h with h | h <;> simp [h]
    unfold startSession
    rw [if_pos hcond]
  refine ⟨haux, ?_⟩
  intro hne
  constructor
  · intro h
    exact hne (by rw [haux (Or.inl h)])
  · intro h
    exact hne (by rw [haux (Or.inr h)])

/-- C8 witness: the rejected empty-department and zero-duration calls. -/
theorem c8_witness :
    startSession "t-001" "" 5 0 "ses-a" dbT = (.missingFields, dbT) ∧
    startSession "t-001" "CS" 0 0 "ses-b" dbT = (.missingFields, dbT) := by
  exact ⟨(c8_start_validation dbT "t-001" "" 5 0 "ses-a").1 (Or.inl rfl),
    (c8_start_validation dbT "t-001" "CS" 0 0 "ses-b").1 (Or.inr rfl)⟩

/-- C9: for an authorized, well-formed request, history returns exactly the
(name, roll_no, status) rows of the record-session-student join whose session
has the requested department and a start_time inside the day window
[dayStart, dayEnd], both bounds included (BETWEEN is inclusive); rows of
other days or departments, and records whose session or student row is
missing, never appear. -/
theorem c9_history_day_window (db : DB) (teacher_id department date : String)
    (dayStart dayEnd : Int)
    (htid : teacher_id ≠ "") (hdept : department ≠ "") (hdate : date ≠ "")
    (hteacher : ∃ t ∈ db.teachers, t.teacher_id = teacher_id) :
    ∃ rows, history teacher_id department date dayStart dayEnd db = some rows ∧
      ∀ row, row ∈ rows ↔ ∃ ar ∈ db.records, ∃ s ∈ db.sessions, ∃ st ∈ db.students,
        ar.session_id = s.session_id ∧ ar.student_id = st.student_id ∧
        s.department = department ∧ dayStart ≤ s.start_time ∧ s.start_time ≤ dayEnd ∧
        row = (st.name, st.roll_no, ar.status) := by
  obtain ⟨t, ht, htid'⟩ := hteacher
  obtain ⟨t', hfind⟩ := find_isSome_of_mem (p := fun t => t.teacher_id == teacher_id) ht
    (by simp [htid'])
  refine ⟨historyQuery department dayStart dayEnd db, ?_, ?_⟩
  · have hcond : (teacher_id == "" || department == "" || date == "") = false := by
      simp [htid, hdept, hdate]
    simp [history, hcond, hfind]
  · intro row
    rw [historyQuery]
    simp only [List.mem_flatMap, List.mem_filterMap]
    constructor
    · rintro ⟨ar, har, s, hs, st, hst, hcond⟩
      split at hcond
      · rename_i hc
        simp only [Bool.and_eq_true, beq_iff_eq, decide_eq_true_eq] at hc
        obtain ⟨⟨⟨⟨h1, h2⟩, h3⟩, h4⟩, h5⟩ := hc
        injection hcond with hrow
        exact ⟨ar, har, s, hs, st, hst, h1, h2, h3, h4, h5, hrow.symm⟩
      · cases hcond
    · rintro ⟨ar, har, s, hs, st, hst, h1, h2, h3, h4, h5, hrow⟩
      refine ⟨ar, har, s, hs, st, hst, ?_⟩
      rw [if_pos (by simp [h1, h2, h3, h4, h5]), hrow]

/-- C9 witness: the full characterization at a concrete database and window. -/
theorem c9_witness :
    ∃ rows, history "t-001" "CS" "2024-01-01" 0 86399999 dbW = some rows ∧
      ∀ row, row ∈ rows ↔ ∃ ar ∈ dbW.records, ∃ s ∈ dbW.sessions, ∃ st ∈ dbW.students,
        ar.session_id = s.session_id ∧ ar.student_id = st.student_id ∧
        s.department = "CS" ∧ 0 ≤ s.start_time ∧ s.start_time ≤ 86399999 ∧
        row = (st.name, st.roll_no, ar.status) :=
  c9_history_day_window dbW "t-001" "CS" "2024-01-01" 0 86399999
    (by decide) (by decide) (by decide)
    ⟨⟨"t-001", "admin", "admin123"⟩, by simp [dbW], rfl⟩

/-- Dropping the list elements whose image is empty does not change a
flatMap. -/
theorem flatMap_eq_flatMap_filter {α β : Type} (f : α → List β) (p : α → Bool) :
    ∀ l : List α, (∀ a ∈ l, p a = false → f a = []) →
      l.flatMap f = (l.filter p).flatMap f := by
  intro l
  induction l with
  | nil => intro _; rfl
  | cons c cs ih =>
      intro h
      have ih' := ih (fun a ha => h a (List.mem_cons_of_mem c ha))
      rw [List.flatMap_cons, List.filter_cons]
      by_cases hc : p c = true
      · rw [if_pos hc, List.flatMap_cons, ih']
      · have hfc : f c = [] := h c (List.mem_cons_self c cs) (by simpa using hc)
        rw [if_neg hc, hfc, List.nil_append, ih']

/-- C10: deleting a student (by an authorized teacher) removes exactly the
students-table rows with that id and nothing else — attendance_records,
attendance_sessions and teachers are untouched — and the now-orphaned
records are invisible to the reporting join: filtering them out of the
records table does not change any history result. -/
theorem c10_delete_student_no_cascade (db : DB) (teacher_id student_id : String)
    (hteacher : ∃ t ∈ db.teachers, t.teacher_id = teacher_id) :
    (deleteStudent teacher_id student_id db).1 = .removed ∧
    (deleteStudent teacher_id student_id db).2.records = db.records ∧
    (deleteStudent teacher_id student_id db).2.sessions = db.sessions ∧
    (deleteStudent teacher_id student_id db).2.teachers = db.teachers ∧
    (deleteStudent teacher_id student_id db).2.students =
      db.students.filter (fun st => !(st.student_id == student_id)) ∧
    ∀ department : String, ∀ dayStart dayEnd : Int,
      historyQuery department dayStart dayEnd (deleteStudent teacher_id student_id db).2 =
        historyQuery department dayStart dayEnd
          { (deleteStudent teacher_id student_id db).2 with
            records := (deleteStudent teacher_id student_id db).2.records.filter
              (fun r => !(r.student_id == student_id)) } := by
  obtain ⟨t, ht, htid'⟩ := hteacher
  obtain ⟨t', hfind⟩ := find_isSome_of_mem (p := fun t => t.teacher_id == teacher_id) ht
    (by simp [htid'])
  have hdel : deleteStudent teacher_id student_id db =
      (.removed,
        { db with students := db.students.filter (fun st => !(st.student_id == student_id)) }) := by
    unfold deleteStudent
    rw [hfind]
  rw [hdel]
  refine ⟨rfl, rfl, rfl, rfl, rfl, ?_⟩
  intro dep dayStart dayEnd
  rw [historyQuery, historyQuery]
  exact flatMap_eq_flatMap_filter _ _ _ (by
    intro ar _ hp
    have harid : ar.student_id = student_id := by simpa using hp
    rw [List.flatMap_eq_nil_iff]
    intro l hl
    rw [List.filterMap_eq_nil_iff]
    intro st hst
    have hst' := List.mem_filter.mp hst
    have hne : (st.student_id == student_id) = false := by
      have := hst'.2
      simp only [Bool.not_eq_true'] at this
      exact this
    rw [if_neg]
    intro hc
    simp only [Bool.and_eq_true, beq_iff_eq] at hc
    have : ar.student_id = st.student_id := hc.1.1.1.2
    rw [harid] at this
    exact absurd (beq_iff_eq.mpr this.symm) (by simp [hne]))

/-- C10 witness: the frame facts at a concrete database. -/
theorem c10_witness :
    (deleteStudent "t-001" "stu-1" dbW).1 = .removed ∧
    (deleteStudent "t-001" "stu-1" dbW).2.records = dbW.records ∧
    historyQuery "CS" 0 86399999 (deleteStudent "t-001" "stu-1" dbW).2 =
      historyQuery "CS" 0 86399999
        { (deleteStudent "t-001" "stu-1" dbW).2 with
          records := (deleteStudent "t-001" "stu-1" dbW).2.records.filter
            (fun r => !(r.student_id == "stu-1")) } := by
  obtain ⟨h1, h2, _, _, _, h6⟩ := c10_delete_student_no_cascade dbW "t-001" "stu-1"
    ⟨⟨"t-001", "admin", "admin123"⟩, by simp [dbW], rfl⟩
  exact ⟨h1, h2, h6 "CS" 0 86399999⟩
